import Mathlib

/-!
Shallow embedding of the drag-and-drop project tracker (src/app.ts):
the validator function, the observable project store, and the form
submission flow.  JavaScript values of type string-or-number are
embedded as JsValue; JavaScript numbers (as used here: integer literals
and the result of unary plus on an input string, possibly NaN) are
embedded as JSNum.  The listeners array of the store holds callbacks;
we model a callback abstractly by a tag of type L, and model a
notification round as the list of (tag, snapshot) pairs in call order.
-/

namespace DragDrop

/-- Embedding of the ProjectStatus enum. -/
inductive ProjectStatus
  | active
  | finished
deriving DecidableEq, Repr

/-- Embedding of the JavaScript numbers that reach the validator: an
integer, or NaN (produced by unary plus on a non-numeric input string). -/
inductive JSNum
  | nan
  | int (n : Int)
deriving DecidableEq, Repr

/-- JavaScript truthiness of a number: 0 and NaN are falsy. -/
def JSNum.toBool : JSNum → Bool
  | JSNum.nan => false
  | JSNum.int n => n != 0

/-- JavaScript comparison value <= bound; any comparison with NaN is false. -/
def JSNum.jsLe : JSNum → Int → Bool
  | JSNum.nan, _ => false
  | JSNum.int n, m => n ≤ m

/-- JavaScript comparison value >= bound; any comparison with NaN is false. -/
def JSNum.jsGe : JSNum → Int → Bool
  | JSNum.nan, _ => false
  | JSNum.int n, m => n ≥ m

/-- JavaScript toString for the numbers of this fragment. -/
def JSNum.toStr : JSNum → String
  | JSNum.nan => "NaN"
  | JSNum.int n => toString n

/-- Embedding of the union type string | number used by the validator. -/
inductive JsValue
  | str (s : String)
  | num (n : JSNum)
deriving DecidableEq, Repr

/-- JavaScript truthiness of a string-or-number value: the empty string,
0 and NaN are falsy. -/
def JsValue.truthy : JsValue → Bool
  | JsValue.str s => s != ""
  | JsValue.num n => n.toBool

/-- JavaScript toString of a string-or-number value. -/
def JsValue.toStr : JsValue → String
  | JsValue.str s => s
  | JsValue.num n => n.toStr

/-- JavaScript String.prototype.trim: strip leading and trailing
whitespace, modelled over the character list. -/
def jsTrim (s : String) : String :=
  String.mk (((s.data.dropWhile Char.isWhitespace).reverse.dropWhile Char.isWhitespace).reverse)

/-- Embedding of the validate interface: a labeled value with optional
constraints.  Absent optional fields are none. -/
structure validate where
  value : JsValue
  required : Option Bool := none
  minLength : Option Int := none
  maxLength : Option Int := none
  max : Option Int := none
  min : Option Int := none
  field : String
deriving DecidableEq, Repr

/-- Embedding of the result object of validatedInput. -/
structure ValidationResult where
  isValid : Bool
  message : String
deriving DecidableEq, Repr

/-- First guarded block of validatedInput: the presence check.  It runs
only when the value is truthy (non-empty string, number other than 0
and NaN); it threads the mutable pair (isValid, message). -/
def requiredCheck (v : validate) (st : Bool × String) : Bool × String :=
  if v.value.truthy then
    let ok := st.1 && ((jsTrim v.value.toStr).length != 0)
    (ok, if !ok then v.field ++ " field is required" else "")
  else st

/-- Second guarded block of validatedInput: the maxLength check, run
when maxLength is non-null and the value is a string. -/
def maxLengthCheck (v : validate) (st : Bool × String) : Bool × String :=
  match v.maxLength, v.value with
  | some n, JsValue.str s =>
    let ok := st.1 && decide ((s.length : Int) ≤ n)
    (ok, if !ok then
           v.field ++ " field most not be more than " ++ toString n ++ " characters"
         else "")
  | _, _ => st

/-- Third guarded block of validatedInput: the minLength check, run
when minLength is non-null and the value is a string. -/
def minLengthCheck (v : validate) (st : Bool × String) : Bool × String :=
  match v.minLength, v.value with
  | some n, JsValue.str s =>
    let ok := st.1 && decide ((s.length : Int) ≥ n)
    (ok, if !ok then
           v.field ++ " field most not be less than " ++ toString n ++ " characters"
         else "")
  | _, _ => st

/-- Fourth guarded block of validatedInput: the max check, run when max
is non-null and the value is a number. -/
def maxCheck (v : validate) (st : Bool × String) : Bool × String :=
  match v.max, v.value with
  | some n, JsValue.num m =>
    let ok := st.1 && m.jsLe n
    (ok, if !ok then
           v.field ++ " field most not be more than " ++ toString n ++ " numbers"
         else "")
  | _, _ => st

/-- Fifth guarded block of validatedInput: the min check, run when min
is non-null and the value is a number. -/
def minCheck (v : validate) (st : Bool × String) : Bool × String :=
  match v.min, v.value with
  | some n, JsValue.num m =>
    let ok := st.1 && m.jsGe n
    (ok, if !ok then
           v.field ++ " field most not be less than " ++ toString n ++ " numbers"
         else "")
  | _, _ => st

/-- Embedding of validatedInput (src/app.ts lines 111-151).  The five
guarded blocks execute in source order, each threading the mutable pair
(isValid, message); a guarded block that executes overwrites message
with its own text when the accumulated isValid is false, and with the
empty string otherwise. -/
def validatedInput (v : validate) : ValidationResult :=
  let st := (true, "")
  let st := requiredCheck v st
  let st := maxLengthCheck v st
  let st := minLengthCheck v st
  let st := maxCheck v st
  let st := minCheck v st
  { isValid := st.1, message := st.2 }

/-- Embedding of the Project class. -/
structure Project where
  id : String
  title : String
  description : String
  people : JSNum
  status : ProjectStatus
deriving DecidableEq, Repr

/-- Embedding of the ProjectState singleton (together with the listeners
array it inherits from State).  A listener callback is modelled
abstractly by a tag of type L; a notification round is modelled by the
list of (tag, snapshot contents) pairs in call order. -/
structure ProjectState (L : Type) where
  projects : List Project
  listeners : List L
deriving DecidableEq, Repr

/-- Embedding of State.addListener: push onto the listeners array. -/
def addListener {L : Type} (s : ProjectState L) (listenerFn : L) : ProjectState L :=
  { s with listeners := s.listeners ++ [listenerFn] }

/-- Embedding of ProjectState.updateListeners: call each listener in
array order with a slice (copy) of the projects array.  Here we record
the contents each listener receives; the reference-level copy semantics
of slice is modelled separately by notifyFrom below. -/
def updateListeners {L : Type} (s : ProjectState L) : List (L × List Project) :=
  s.listeners.map (fun listenerFn => (listenerFn, s.projects))

/-- Embedding of ProjectState.addProject.  The id produced by
Math.random().toString() is an external input and is passed as the
newId argument. -/
def addProject {L : Type} (s : ProjectState L) (newId title description : String)
    (numOfPeople : JSNum) : ProjectState L × List (L × List Project) :=
  let newProject : Project :=
    { id := newId, title := title, description := description,
      people := numOfPeople, status := ProjectStatus.active }
  let s' := { s with projects := s.projects ++ [newProject] }
  (s', updateListeners s')

/-- In-place status mutation of the first array element whose id
matches, as performed on the object returned by find. -/
def setStatusFirst : List Project → String → ProjectStatus → List Project
  | [], _, _ => []
  | p :: ps, projectId, newStatus =>
    if p.id == projectId then { p with status := newStatus } :: ps
    else p :: setStatusFirst ps projectId newStatus

/-- Embedding of ProjectState.moveProject: find the project by id; if
present and its status differs from newStatus, mutate the status and
notify, otherwise do nothing. -/
def moveProject {L : Type} (s : ProjectState L) (projectId : String)
    (newStatus : ProjectStatus) : ProjectState L × List (L × List Project) :=
  match s.projects.find? (fun prj => prj.id == projectId) with
  | some project =>
    if project.status != newStatus then
      let s' := { s with projects := setStatusFirst s.projects projectId newStatus }
      (s', updateListeners s')
    else (s, [])
  | none => (s, [])

/-- The three public operations of the store, as a trace alphabet. -/
inductive Op (L : Type)
  | add (newId title description : String) (numOfPeople : JSNum)
  | move (projectId : String) (newStatus : ProjectStatus)
  | listen (listenerFn : L)

/-- State reached after one operation (notifications discarded). -/
def applyOp {L : Type} (s : ProjectState L) : Op L → ProjectState L
  | Op.add i t d p => (addProject s i t d p).1
  | Op.move pid st => (moveProject s pid st).1
  | Op.listen fn => addListener s fn

/-- State reached after a sequence of operations. -/
def runOps {L : Type} (s : ProjectState L) (ops : List (Op L)) : ProjectState L :=
  ops.foldl applyOp s

/-- The id an add operation supplies is fresh: it is not currently in
the store.  This models the spec assumption that the generated ids are
unique. -/
def freshOp {L : Type} (s : ProjectState L) : Op L → Bool
  | Op.add i _ _ _ => !((s.projects.map Project.id).contains i)
  | _ => true

/-- Every add operation of the trace supplies a fresh id. -/
def freshRun {L : Type} : ProjectState L → List (Op L) → Bool
  | _, [] => true
  | s, op :: ops => freshOp s op && freshRun (applyOp s op) ops

/-!
Reference-level model of updateListeners, for the copy semantics of
this.projects.slice().  A heap is a list of array cells indexed by
reference; the store array lives at storeRef; each listener call
allocates a fresh cell holding a copy of the store contents and passes
its reference to the listener.
-/

/-- Read the array cell at reference r (empty past the end). -/
def lookupArr : List (List Project) → Nat → List Project
  | [], _ => []
  | a :: _, 0 => a
  | _ :: t, Nat.succ n => lookupArr t n

/-- Overwrite the array cell at reference r, modelling an arbitrary
mutation of that array (push, reorder, clear, ...). -/
def writeArr : List (List Project) → Nat → List Project → List (List Project)
  | [], _, _ => []
  | _ :: t, 0, v => v :: t
  | a :: t, Nat.succ n, v => a :: writeArr t n v

/-- Reference-level updateListeners: walk the listeners in array order;
for each one allocate a fresh cell (the slice) containing the store
contents and hand over its reference. -/
def notifyFrom {L : Type} (h : List (List Project)) (storeRef : Nat) :
    List L → List (List Project) × List (L × Nat)
  | [] => (h, [])
  | listenerFn :: ls =>
    let snapRef := h.length
    let h1 := h ++ [lookupArr h storeRef]
    let res := notifyFrom h1 storeRef ls
    (res.1, (listenerFn, snapRef) :: res.2)

/-!
Embedding of the form submission flow (ProjectForm.validateInputs and
ProjectForm.getInputValues).  The unary-plus string-to-number coercion
applied to the people input is passed in as an explicit function
toNum.  An alert is modelled by appending its message to the returned
alert list; validateInputs returns the tuple (as some) or void (none),
together with the alerts raised.
-/

/-- The title rule built on submit. -/
def validateTitle (enteredTitle : String) : validate :=
  { value := JsValue.str enteredTitle, required := some true,
    minLength := some 5, field := "Title" }

/-- The description rule built on submit. -/
def validateDesc (enteredDesc : String) : validate :=
  { value := JsValue.str enteredDesc, required := some true,
    minLength := some 10, field := "Description" }

/-- The people rule built on submit (name kept from the source). -/
def validatePeole (enteredPeople : JSNum) : validate :=
  { value := JsValue.num enteredPeople, required := some true,
    max := some 5, min := some 1, field := "People" }

/-- Embedding of ProjectForm.validateInputs: the three rules are tested
in order with else-if chaining; the first failing rule alerts its
message and no tuple is returned; when all pass the tuple is returned
with no alert. -/
def validateInputs (enteredTitle enteredDesc : String) (enteredPeople : JSNum) :
    Option (String × String × JSNum) × List String :=
  if !(validatedInput (validateTitle enteredTitle)).isValid then
    (none, [(validatedInput (validateTitle enteredTitle)).message])
  else if !(validatedInput (validateDesc enteredDesc)).isValid then
    (none, [(validatedInput (validateDesc enteredDesc)).message])
  else if !(validatedInput (validatePeole enteredPeople)).isValid then
    (none, [(validatedInput (validatePeole enteredPeople)).message])
  else
    (some (enteredTitle, enteredDesc, enteredPeople), [])

/-- The three text input elements of the form. -/
structure FormState where
  titleVal : String
  descVal : String
  peopleVal : String
deriving DecidableEq, Repr

/-- Embedding of ProjectForm.clearInput: blank all three fields. -/
def clearInput (_f : FormState) : FormState :=
  { titleVal := "", descVal := "", peopleVal := "" }

/-- Embedding of ProjectForm.getInputValues: validate the inputs; when a
tuple comes back, add the project to the store and clear the form.
toNum is the unary-plus coercion on the people input string, and newId
the id the store will generate.  Returns the resulting form, store,
notifications and alerts. -/
def getInputValues {L : Type} (toNum : String → JSNum) (newId : String)
    (f : FormState) (s : ProjectState L) :
    FormState × ProjectState L × List (L × List Project) × List String :=
  let r := validateInputs f.titleVal f.descVal (toNum f.peopleVal)
  match r.1 with
  | some (title, desc, people) =>
    let a := addProject s newId title desc people
    (clearInput f, a.1, a.2, r.2)
  | none => (f, s, [], r.2)

/-!
Concrete sample data used by witnesses and counterexamples.
-/

/-- The rule of the spec example validate(value 6, max 5, min 1, field People). -/
def rule6 : validate :=
  { value := JsValue.num (JSNum.int 6), max := some 5, min := some 1, field := "People" }

/-- The rule of the spec example validate(value "", required, field Title). -/
def ruleEmptyTitle : validate :=
  { value := JsValue.str "", required := some true, field := "Title" }

/-- A sample active project. -/
def prjX : Project :=
  { id := "x", title := "t", description := "d", people := JSNum.int 1,
    status := ProjectStatus.active }

/-- The sample project after being moved to Finished. -/
def prjXFin : Project := { prjX with status := ProjectStatus.finished }

/-- A store holding the sample project and one listener. -/
def stateX : ProjectState Nat := { projects := [prjX], listeners := [0] }

/-- A filled-in form with valid values. -/
def formSample : FormState :=
  { titleVal := "My Project", descVal := "Build the thing", peopleVal := "3" }

/-- An empty store with one listener. -/
def stateEmpty : ProjectState Nat := { projects := [], listeners := [0] }

/-- The project created from the sample form. -/
def projectSample : Project :=
  { id := "0.123", title := "My Project", description := "Build the thing",
    people := JSNum.int 3, status := ProjectStatus.active }

/-!
Helper lemmas.
-/

/-- When the min block is applicable, it runs last; whenever the
accumulated flag ends up false it writes its own message, whether or
not the min comparison itself failed. -/
theorem minCheck_invalid_message (v : validate) (n : Int) (m : JSNum)
    (hmin : v.min = some n) (hval : v.value = JsValue.num m) (st : Bool × String)
    (hinv : (minCheck v st).1 = false) :
    (minCheck v st).2
      = v.field ++ " field most not be less than " ++ toString n ++ " numbers" := by
  unfold minCheck at hinv ⊢
  simp only [hmin, hval] at hinv ⊢
  simp [hinv]

/-- Mutating the status of the project found by id turns the result of
a subsequent find into the same project with the new status. -/
theorem find?_setStatusFirst (ps : List Project) (projectId : String)
    (newStatus : ProjectStatus) (p : Project)
    (h : ps.find? (fun q => q.id == projectId) = some p) :
    (setStatusFirst ps projectId newStatus).find? (fun q => q.id == projectId)
      = some { p with status := newStatus } := by
  induction ps with
  | nil => simp [List.find?] at h
  | cons q qs ih =>
    cases hq : (q.id == projectId) with
    | true =>
      simp only [List.find?, hq, Option.some.injEq] at h
      subst h
      simp [setStatusFirst, List.find?, hq]
    | false =>
      simp only [List.find?, hq] at h
      simp only [setStatusFirst, hq]
      simp only [Bool.false_eq_true, if_false]
      simp only [List.find?, hq]
      exact ih h

/-- Status mutation does not change the list of ids. -/
theorem map_id_setStatusFirst (ps : List Project) (projectId : String)
    (newStatus : ProjectStatus) :
    (setStatusFirst ps projectId newStatus).map Project.id = ps.map Project.id := by
  induction ps with
  | nil => rfl
  | cons q qs ih =>
    cases hq : (q.id == projectId) with
    | true => simp [setStatusFirst, hq]
    | false => simp [setStatusFirst, hq, ih]

/-- moveProject never changes the list of ids. -/
theorem moveProject_map_id {L : Type} (s : ProjectState L) (projectId : String)
    (newStatus : ProjectStatus) :
    (moveProject s projectId newStatus).1.projects.map Project.id
      = s.projects.map Project.id := by
  unfold moveProject
  cases hf : s.projects.find? (fun prj => prj.id == projectId) with
  | none => rfl
  | some p =>
    cases hb : (p.status != newStatus) with
    | true => simp [hb, map_id_setStatusFirst]
    | false => simp [hb]

/-- Each store operation preserves distinctness of ids, provided an add
is given a fresh id. -/
theorem applyOp_nodup {L : Type} (s : ProjectState L) (op : Op L)
    (hs : (s.projects.map Project.id).Nodup)
    (hf : freshOp s op = true) :
    ((applyOp s op).projects.map Project.id).Nodup := by
  cases op with
  | add i t d np =>
    have hmem : i ∉ s.projects.map Project.id := by
      simpa [freshOp] using hf
    simp only [applyOp, addProject]
    simp only [List.map_append, List.map_cons, List.map_nil]
    rw [List.nodup_append]
    refine ⟨hs, List.nodup_singleton _, ?_⟩
    simp only [List.disjoint_singleton]
    simpa using hmem
  | move pid st => simpa [applyOp, moveProject_map_id] using hs
  | listen fn => simpa [applyOp, addListener] using hs

/-- Reading below the old length is unaffected by appending cells. -/
theorem lookupArr_append_lt (h h2 : List (List Project)) (r : Nat) (hr : r < h.length) :
    lookupArr (h ++ h2) r = lookupArr h r := by
  induction h generalizing r with
  | nil => simp at hr
  | cons a t ih =>
    cases r with
    | zero => rfl
    | succ n => exact ih n (by simpa using Nat.lt_of_succ_lt_succ hr)

/-- Reading the freshly appended cell yields its contents. -/
theorem lookupArr_append_self (h : List (List Project)) (x : List Project) :
    lookupArr (h ++ [x]) h.length = x := by
  induction h with
  | nil => rfl
  | cons a t ih => exact ih

/-- Writing one cell leaves every other cell unchanged. -/
theorem lookupArr_writeArr_ne (h : List (List Project)) (r r2 : Nat)
    (v : List Project) (hne : r ≠ r2) :
    lookupArr (writeArr h r v) r2 = lookupArr h r2 := by
  induction h generalizing r r2 with
  | nil => rfl
  | cons a t ih =>
    cases r with
    | zero =>
      cases r2 with
      | zero => exact absurd rfl hne
      | succ n2 => rfl
    | succ n =>
      cases r2 with
      | zero => rfl
      | succ n2 => exact ih n n2 (fun hh => hne (by rw [hh]))

/-- Behaviour of a notification round at the reference level: listeners
are served in order; cells existing before the round are untouched;
every snapshot reference is fresh (at or above the old heap size) and
its cell holds the store contents. -/
theorem notifyFrom_spec {L : Type} (ls : List L) (h : List (List Project)) (storeRef : Nat)
    (hr : storeRef < h.length) :
    ((notifyFrom h storeRef ls).2.map Prod.fst = ls)
    ∧ (∀ r, r < h.length → lookupArr (notifyFrom h storeRef ls).1 r = lookupArr h r)
    ∧ (∀ ev ∈ (notifyFrom h storeRef ls).2,
         h.length ≤ ev.2
         ∧ lookupArr (notifyFrom h storeRef ls).1 ev.2 = lookupArr h storeRef) := by
  induction ls generalizing h with
  | nil => simp [notifyFrom]
  | cons l ls ih =>
    have hlen : storeRef < (h ++ [lookupArr h storeRef]).length := by
      simp only [List.length_append, List.length_cons, List.length_nil]
      omega
    obtain ⟨ih1, ih2, ih3⟩ := ih (h ++ [lookupArr h storeRef]) hlen
    simp only [notifyFrom]
    refine ⟨by simp [ih1], ?_, ?_⟩
    · intro r hrlt
      rw [ih2 r (by simp only [List.length_append, List.length_cons, List.length_nil]; omega)]
      exact lookupArr_append_lt h _ r hrlt
    · intro ev hev
      simp only [List.mem_cons] at hev
      cases hev with
      | inl heq =>
        subst heq
        refine ⟨Nat.le_refl _, ?_⟩
        rw [ih2 h.length
          (by simp only [List.length_append, List.length_cons, List.length_nil]; omega)]
        exact lookupArr_append_self h _
      | inr hmem =>
        obtain ⟨hge, hcopy⟩ := ih3 ev hmem
        refine ⟨?_, ?_⟩
        · simp only [List.length_append, List.length_cons, List.length_nil] at hge
          omega
        · rw [hcopy]
          exact lookupArr_append_lt h _ storeRef hr

/-!
Claim theorems.
-/

/-- Claim C1, counterexample: for the rule value 6, max 5, min 1, field
People, the surfaced message is not the max message; it is the min
message, although only the max check failed. -/
theorem maxmin_message_counterexample :
    (validatedInput rule6).isValid = false
    ∧ (validatedInput rule6).message ≠ "People field most not be more than 5 numbers"
    ∧ (validatedInput rule6).message = "People field most not be less than 1 numbers" := by
  decide

/-- Claim C1, amended: for the rule value 6, max 5, min 1, field
People, validatedInput returns isValid false, and the surfaced message
is that of the min check, the last-evaluated applicable check: in
general, whenever min is set and the value is numeric, an invalid
result always carries the min message, because each evaluated check
overwrites the message whenever the accumulated flag is false, even
when that check itself passes.  The surfaced message is therefore that
of the last-evaluated applicable check, not of the last failing one. -/
theorem invalid_min_last_message (v : validate) (n : Int) (m : JSNum)
    (hmin : v.min = some n) (hval : v.value = JsValue.num m)
    (hinv : (validatedInput v).isValid = false) :
    (validatedInput v).message
      = v.field ++ " field most not be less than " ++ toString n ++ " numbers" :=
  minCheck_invalid_message v n m hmin hval _ hinv

/-- Witness for claim C1 at the concrete rule of the spec example. -/
theorem invalid_min_last_message_witness :
    (validatedInput rule6).isValid = false
    ∧ (validatedInput rule6).message = "People field most not be less than 1 numbers" :=
  ⟨by decide, invalid_min_last_message rule6 1 (JSNum.int 6) rfl rfl (by decide)⟩

/-- Claim C2: the code evaluated at the failing input.  For the rule
value "", required true, field Title, validatedInput returns isValid
true and an empty message: the presence check is guarded by the
truthiness of the value, and the empty string is falsy, so the check
that should reject an empty required field is skipped. -/
theorem empty_required_passes :
    validatedInput ruleEmptyTitle = { isValid := true, message := "" } := by
  decide

/-- Claim C3: when the id is present and the new status differs, the
project is re-found with the new status, and every registered listener
is notified exactly once, in registration order, with a snapshot in
which the project has the new status. -/
theorem moveProject_changes_status {L : Type} (s : ProjectState L) (projectId : String)
    (S : ProjectStatus) (p : Project)
    (hfind : s.projects.find? (fun prj => prj.id == projectId) = some p)
    (hne : p.status ≠ S) :
    (moveProject s projectId S).1.projects.find? (fun prj => prj.id == projectId)
        = some { p with status := S }
    ∧ (moveProject s projectId S).2
        = s.listeners.map (fun listenerFn =>
            (listenerFn, (moveProject s projectId S).1.projects)) := by
  have hb : (p.status != S) = true := by simp [hne]
  constructor
  · simp only [moveProject, hfind, hb, if_true]
    exact find?_setStatusFirst _ _ _ _ hfind
  · simp [moveProject, hfind, hb, updateListeners]

/-- Witness for claim C3: moving the sample project to Finished. -/
theorem moveProject_changes_status_witness :
    (moveProject stateX "x" ProjectStatus.finished).1.projects.find?
        (fun prj => prj.id == "x") = some prjXFin
    ∧ (moveProject stateX "x" ProjectStatus.finished).2
      = stateX.listeners.map (fun listenerFn =>
          (listenerFn, (moveProject stateX "x" ProjectStatus.finished).1.projects)) :=
  moveProject_changes_status stateX "x" ProjectStatus.finished prjX (by decide) (by decide)

/-- Claim C4: when the id is present and the new status equals the
current one, the store is unchanged and no listener is invoked; the
call is idempotent. -/
theorem moveProject_same_status_noop {L : Type} (s : ProjectState L) (projectId : String)
    (p : Project) (hfind : s.projects.find? (fun prj => prj.id == projectId) = some p) :
    moveProject s projectId p.status = (s, [])
    ∧ moveProject (moveProject s projectId p.status).1 projectId p.status = (s, []) := by
  have h1 : moveProject s projectId p.status = (s, []) := by
    simp [moveProject, hfind]
  refine ⟨h1, ?_⟩
  rw [h1]
  exact h1

/-- Witness for claim C4: moving the sample project to its current
status Active. -/
theorem moveProject_same_status_noop_witness :
    moveProject stateX "x" ProjectStatus.active = (stateX, [])
    ∧ moveProject (moveProject stateX "x" ProjectStatus.active).1 "x" ProjectStatus.active
      = (stateX, []) :=
  moveProject_same_status_noop stateX "x" prjX (by decide)

/-- Claim C5: when the id is absent the store is unchanged, no listener
is invoked, and the total function returns normally (no error path). -/
theorem moveProject_missing_noop {L : Type} (s : ProjectState L) (projectId : String)
    (newStatus : ProjectStatus)
    (hfind : s.projects.find? (fun prj => prj.id == projectId) = none) :
    moveProject s projectId newStatus = (s, []) := by
  simp [moveProject, hfind]

/-- Witness for claim C5: moving an unknown id. -/
theorem moveProject_missing_noop_witness :
    moveProject stateX "zzz" ProjectStatus.finished = (stateX, []) :=
  moveProject_missing_noop stateX "zzz" ProjectStatus.finished (by decide)

/-- Claim C6: for all arguments, addProject appends exactly one project
to the end of the sequence, with status Active, the given field values
and the generated id; the previously stored projects are unchanged (a
prefix of the result); every registered listener is then notified
exactly once, in order, with the new snapshot.  The function is total:
it never fails. -/
theorem addProject_appends_notifies {L : Type} (s : ProjectState L)
    (newId title description : String) (numOfPeople : JSNum) :
    (addProject s newId title description numOfPeople).1.projects
      = s.projects ++ [{ id := newId, title := title, description := description,
                         people := numOfPeople, status := ProjectStatus.active }]
    ∧ (addProject s newId title description numOfPeople).1.listeners = s.listeners
    ∧ (addProject s newId title description numOfPeople).2
      = s.listeners.map (fun listenerFn =>
          (listenerFn, (addProject s newId title description numOfPeople).1.projects)) :=
  ⟨rfl, rfl, rfl⟩

/-- Claim C7: in every state reachable by addProject, moveProject and
addListener from a state with distinct ids, the project ids remain
pairwise distinct, provided each add is supplied a fresh id (the id
generator is modelled as an external input assumed unique, as the spec
states). -/
theorem project_ids_nodup {L : Type} (s : ProjectState L) (ops : List (Op L))
    (hs : (s.projects.map Project.id).Nodup) (hf : freshRun s ops = true) :
    ((runOps s ops).projects.map Project.id).Nodup := by
  induction ops generalizing s with
  | nil => exact hs
  | cons op ops ih =>
    simp only [freshRun, Bool.and_eq_true] at hf
    exact ih (applyOp s op) (applyOp_nodup s op hs hf.1) hf.2

/-- Witness for claim C7 on a concrete trace of all three operations. -/
theorem project_ids_nodup_witness :
    ((runOps ({ projects := [], listeners := [] } : ProjectState Nat)
        [Op.add "a" "t" "d" (JSNum.int 1), Op.add "b" "t" "d" (JSNum.int 2),
         Op.move "a" ProjectStatus.finished, Op.listen 7]).projects.map Project.id).Nodup :=
  project_ids_nodup _ _ (by decide) (by decide)

/-- Claim C8: a notification round serves the listeners in registration
order; each listener receives a reference distinct from the store array
holding a copy of the full current collection, and overwriting the
received array with anything (append, reorder, clear) leaves the store
array unchanged. -/
theorem notify_order_snapshot_copy {L : Type} (h : List (List Project)) (storeRef : Nat)
    (ls : List L) (hr : storeRef < h.length) :
    ((notifyFrom h storeRef ls).2.map Prod.fst = ls)
    ∧ lookupArr (notifyFrom h storeRef ls).1 storeRef = lookupArr h storeRef
    ∧ (∀ ev ∈ (notifyFrom h storeRef ls).2,
        lookupArr (notifyFrom h storeRef ls).1 ev.2 = lookupArr h storeRef
        ∧ ev.2 ≠ storeRef
        ∧ ∀ v, lookupArr (writeArr (notifyFrom h storeRef ls).1 ev.2 v) storeRef
             = lookupArr h storeRef) := by
  obtain ⟨h1, h2, h3⟩ := notifyFrom_spec ls h storeRef hr
  refine ⟨h1, h2 storeRef hr, fun ev hev => ?_⟩
  obtain ⟨hlen, hcopy⟩ := h3 ev hev
  have hne : ev.2 ≠ storeRef := by omega
  refine ⟨hcopy, hne, fun v => ?_⟩
  rw [lookupArr_writeArr_ne _ _ _ _ hne]
  exact h2 storeRef hr

/-- Witness for claim C8: two listeners over a one-project store; the
first snapshot reference is 1, and clearing that array leaves the store
cell intact. -/
theorem notify_order_snapshot_copy_witness :
    ((notifyFrom [[prjX]] 0 ([0, 1] : List Nat)).2.map Prod.fst = [0, 1])
    ∧ lookupArr (writeArr (notifyFrom [[prjX]] 0 ([0, 1] : List Nat)).1 1 []) 0
      = [prjX] := by
  have h := notify_order_snapshot_copy [[prjX]] 0 ([0, 1] : List Nat) (by decide)
  refine ⟨h.1, ?_⟩
  have hev : ((0 : Nat), (1 : Nat)) ∈ (notifyFrom [[prjX]] 0 ([0, 1] : List Nat)).2 := by
    decide
  exact (h.2.2 (0, 1) hev).2.2 []

/-- Claim C9: on submit the three rules are checked in the order title,
description, people, short-circuiting at the first failure: exactly the
first failing rule alerts its message and the store and form are left
untouched; only when all three pass is addProject invoked, and then the
three fields are cleared and no alert fires. -/
theorem submit_short_circuit {L : Type} (toNum : String → JSNum) (newId : String)
    (f : FormState) (s : ProjectState L) :
    ((validatedInput (validateTitle f.titleVal)).isValid = false →
       getInputValues toNum newId f s
         = (f, s, [], [(validatedInput (validateTitle f.titleVal)).message]))
    ∧ ((validatedInput (validateTitle f.titleVal)).isValid = true →
       (validatedInput (validateDesc f.descVal)).isValid = false →
       getInputValues toNum newId f s
         = (f, s, [], [(validatedInput (validateDesc f.descVal)).message]))
    ∧ ((validatedInput (validateTitle f.titleVal)).isValid = true →
       (validatedInput (validateDesc f.descVal)).isValid = true →
       (validatedInput (validatePeole (toNum f.peopleVal))).isValid = false →
       getInputValues toNum newId f s
         = (f, s, [], [(validatedInput (validatePeole (toNum f.peopleVal))).message]))
    ∧ ((validatedInput (validateTitle f.titleVal)).isValid = true →
       (validatedInput (validateDesc f.descVal)).isValid = true →
       (validatedInput (validatePeole (toNum f.peopleVal))).isValid = true →
       getInputValues toNum newId f s
         = (clearInput f,
            (addProject s newId f.titleVal f.descVal (toNum f.peopleVal)).1,
            (addProject s newId f.titleVal f.descVal (toNum f.peopleVal)).2,
            [])) := by
  refine ⟨fun h1 => ?_, fun h1 h2 => ?_, fun h1 h2 h3 => ?_, fun h1 h2 h3 => ?_⟩
  · simp [getInputValues, validateInputs, h1]
  · simp [getInputValues, validateInputs, h1, h2]
  · simp [getInputValues, validateInputs, h1, h2, h3]
  · simp [getInputValues, validateInputs, h1, h2, h3, addProject, updateListeners, clearInput]

/-- Witness for claim C9: the valid sample form reaches the store and
the form is cleared. -/
theorem submit_short_circuit_witness :
    getInputValues (fun _ => JSNum.int 3) "0.123" formSample stateEmpty
      = ({ titleVal := "", descVal := "", peopleVal := "" },
         { projects := [projectSample], listeners := [0] },
         [(0, [projectSample])],
         []) := by
  have h := (submit_short_circuit (fun _ => JSNum.int 3) "0.123" formSample
      stateEmpty).2.2.2 (by decide) (by decide) (by decide)
  exact h

/-- Claim C10: the required flag is never consulted: two runs of
validatedInput on rules differing only in required return identical
results (both validity and message); presence checking is driven by the
truthiness of the value alone. -/
theorem required_flag_never_consulted (v : validate) (b1 b2 : Option Bool) :
    validatedInput { v with required := b1 } = validatedInput { v with required := b2 } :=
  rfl

end DragDrop
